import Mathlib

/-!
Verification of the FlowTime spaced-repetition engine
(`src/components/dashboard/SpacedRepetition.tsx`) against its
natural-language specification.

Modelling conventions:
* JavaScript numbers used for the SM-2 ease-factor arithmetic are modelled
  as rationals (`ℚ`); the decimal literals `0.1`, `0.08`, `0.02`, `1.3` of
  the source become `1/10`, `8/100`, `2/100`, `13/10`.
* Timestamps (`next_review_date`, "now") are modelled as integers (days).
* Item ids (UUID strings in the database) are modelled as naturals with
  their ascending order standing for the id order.
* `Math.round` of JavaScript rounds half toward +∞, i.e. `⌊x + 1/2⌋`.
-/

namespace FlowTime

/-- JavaScript `Math.round`: rounds to the nearest integer, halves toward +∞. -/
def jsRound (x : ℚ) : Int := Int.floor (x + 1/2)

/-- A row of `spaced_repetition_items` as used by the component
(fields of the `ReviewItem` interface plus the `user_id` and `interval`
columns of the table, which the queries and writes touch). -/
structure ReviewItem where
  id : Nat
  user_id : Nat
  title : String
  content : Option String
  next_review_date : Int
  repetitions : Nat
  ease_factor : ℚ
  interval : Int
deriving DecidableEq

/-- Result record of `calculateNextReview`. -/
structure SMResult where
  easeFactor : ℚ
  interval : Int
  repetitions : Nat
deriving DecidableEq

/-- `calculateNextReview` (SpacedRepetition.tsx lines 56–88): the SM-2 step.
`newEaseFactor` is the source's mutable local after the `< 1.3` clamp. -/
def calculateNextReview (quality : Int) (repetitions : Nat) (easeFactor : ℚ)
    (interval : Int) : SMResult :=
  let rawEase : ℚ :=
    easeFactor + (1/10 - ((5 - quality : Int) : ℚ) * (8/100 + ((5 - quality : Int) : ℚ) * (2/100)))
  let newEaseFactor : ℚ := if rawEase < 13/10 then 13/10 else rawEase
  if quality ≥ 3 then
    { easeFactor := newEaseFactor
      interval :=
        if repetitions = 0 then 1
        else if repetitions = 1 then 6
        else jsRound ((interval : ℚ) * newEaseFactor)
      repetitions := repetitions + 1 }
  else
    { easeFactor := newEaseFactor, interval := 1, repetitions := 0 }

/-- The update payload sent to the store by `reviewItem` (lines 103–111). -/
structure StoreWrite where
  itemId : Nat
  ease_factor : ℚ
  interval : Int
  repetitions : Nat
  next_review_date : Int
deriving DecidableEq

/-- The component's review-session state: the `dueItems` and `currentItem`
React state variables. -/
structure SRState where
  dueItems : List ReviewItem
  currentItem : Option ReviewItem
deriving DecidableEq

/-- `reviewItem` (lines 90–118). With no current item the source does a bare
`return` (no error value, no write). Otherwise it calls the calculator with
the hardcoded constant `1` as the `interval` argument (line 97), builds the
update payload, awaits the store update WITHOUT inspecting its result — the
`writeOk` parameter models that outcome and is accordingly never consulted —
and then filters the graded id out of `dueItems` and moves `currentItem`
to the new head. Returns the new state and the issued write, if any. -/
def reviewItem (st : SRState) (now : Int) (quality : Int) (writeOk : Bool) :
    SRState × Option StoreWrite :=
  match st.currentItem with
  | none => (st, none)
  | some cur =>
    let r := calculateNextReview quality cur.repetitions cur.ease_factor 1
    let nextReviewDate : Int := now + r.interval
    let w : StoreWrite :=
      { itemId := cur.id
        ease_factor := r.easeFactor
        interval := r.interval
        repetitions := r.repetitions
        next_review_date := nextReviewDate }
    let remaining := st.dueItems.filter (fun item => item.id != cur.id)
    let _ := writeOk
    ({ dueItems := remaining, currentItem := remaining.head? }, some w)

/-- Comparison used by the `order("next_review_date")` clause of the due
query: ascending by `next_review_date` only. -/
def dateLE (a b : ReviewItem) : Prop := a.next_review_date ≤ b.next_review_date

instance : DecidableRel dateLE := fun a b => inferInstanceAs (Decidable (_ ≤ _))

instance : IsTotal ReviewItem dateLE := ⟨fun a b => Int.le_total _ _⟩

instance : IsTrans ReviewItem dateLE := ⟨fun _ _ _ => Int.le_trans⟩

/-- The database query issued by `fetchDueItems` (lines 42–48): rows with
matching `user_id` and `next_review_date ≤ now`, ordered ascending by
`next_review_date`. The source requests no further ordering key, so rows
with equal `next_review_date` come back in the backend's underlying row
order; this is modelled by a stable sort over the store list. -/
def fetchDueItemsQuery (store : List ReviewItem) (userId : Nat) (asOf : Int) :
    List ReviewItem :=
  List.insertionSort dateLE
    (store.filter (fun r => r.user_id == userId && decide (r.next_review_date ≤ asOf)))

/-- The state update performed by `fetchDueItems` (lines 50–53) once the
query result `data` arrives: `dueItems` is replaced, and `currentItem` is
set to the head only when `data` is non-empty and no item is current. -/
def applyFetchDueItems (st : SRState) (data : List ReviewItem) : SRState :=
  { dueItems := data
    currentItem :=
      match data, st.currentItem with
      | d :: _, none => some d
      | _, c => c }

/-- Modelled from the spec: steps 1–2 of §4.1 (ease-factor update and the
`1.3` clamp) stated in the spec's own words, for comparison with the
calculator's failure branch. -/
def specEaseUpdate (quality : Int) (priorEase : ℚ) : ℚ :=
  let e : ℚ :=
    priorEase + (1/10 - ((5 - quality : Int) : ℚ) * (8/100 + ((5 - quality : Int) : ℚ) * (2/100)))
  if e < 13/10 then 13/10 else e

/-- Iterating the calculator over a sequence of grades, each step feeding
its outputs back as the next step's history. -/
def runGrades (init : SMResult) (qs : List Int) : SMResult :=
  qs.foldl (fun s q => calculateNextReview q s.repetitions s.easeFactor s.interval) init

/-- A concrete `spaced_repetition_items` row for test scenarios. -/
def mkItem (id uid : Nat) (date : Int) (reps : Nat) (ef : ℚ) (iv : Int) : ReviewItem :=
  { id := id, user_id := uid, title := "t", content := none,
    next_review_date := date, repetitions := reps, ease_factor := ef, interval := iv }

/-- Fresh due item with id 1. -/
def itemA : ReviewItem := mkItem 1 1 0 0 (5/2) 1

/-- Fresh due item with id 2 and the same `next_review_date` as `itemA`. -/
def itemB : ReviewItem := mkItem 2 1 0 0 (5/2) 1

/-- Session with two due items, `itemA` current. -/
def twoItemState : SRState := { dueItems := [itemA, itemB], currentItem := some itemA }

/-- Session with the single due item `itemB` current. -/
def oneItemState : SRState := { dueItems := [itemB], currentItem := some itemB }

/-- Session with an empty queue and no current item. -/
def emptyState : SRState := { dueItems := [], currentItem := none }

/-- A mature item: 2 successful repetitions, ease 2.5, stored interval 6. -/
def storedIntervalItem : ReviewItem := mkItem 1 1 0 2 (5/2) 6

/-- Session presenting `storedIntervalItem`. -/
def storedIntervalState : SRState :=
  { dueItems := [storedIntervalItem], currentItem := some storedIntervalItem }

/-- Store whose underlying row order is id 2 before id 1, both rows due for
user 1 with equal `next_review_date`. -/
def tieStore : List ReviewItem := [itemB, itemA]

end FlowTime

namespace FlowTime

/-! Helper lemmas shared by the claim theorems. -/

lemma clamp_ge_floor (x : ℚ) : 13/10 ≤ (if x < 13/10 then (13/10 : ℚ) else x) := by
  split
  · exact le_refl _
  · exact le_of_not_lt (by assumption)

lemma calc_failure_eq (q : Int) (r : Nat) (e : ℚ) (i : Int) (hq : q < 3) :
    calculateNextReview q r e i
      = { easeFactor := specEaseUpdate q e, interval := 1, repetitions := 0 } := by
  simp only [calculateNextReview, specEaseUpdate]
  rw [if_neg (not_le.mpr hq)]

lemma calc_success_eq (q : Int) (r : Nat) (e : ℚ) (i : Int) (hq : 3 ≤ q) :
    calculateNextReview q r e i
      = { easeFactor := specEaseUpdate q e
          interval :=
            if r = 0 then 1
            else if r = 1 then 6
            else jsRound ((i : ℚ) * specEaseUpdate q e)
          repetitions := r + 1 } := by
  simp only [calculateNextReview, specEaseUpdate]
  rw [if_pos hq]

lemma specEaseUpdate_ge_floor (q : Int) (e : ℚ) : 13/10 ≤ specEaseUpdate q e := by
  simp only [specEaseUpdate]
  exact clamp_ge_floor _

lemma calc_easeFactor_eq (q : Int) (r : Nat) (e : ℚ) (i : Int) :
    (calculateNextReview q r e i).easeFactor = specEaseUpdate q e := by
  rcases le_or_lt 3 q with h | h
  · rw [calc_success_eq q r e i h]
  · rw [calc_failure_eq q r e i h]

lemma calc_easeFactor_ge_floor (q : Int) (r : Nat) (e : ℚ) (i : Int) :
    13/10 ≤ (calculateNextReview q r e i).easeFactor := by
  rw [calc_easeFactor_eq]
  exact specEaseUpdate_ge_floor q e

/-- C1: For every grade with quality < 3 (a failure), `calculateNextReview`
returns `repetitions = 0` and `intervalDays = 1` regardless of prior
repetitions, while the ease factor is still updated by the step-1 formula
(and clamped at `1.3`) rather than being reset to its `2.5` default. -/
theorem C1_failure_branch (q : Int) (r : Nat) (e : ℚ) (i : Int)
    (hq0 : 0 ≤ q) (hq : q < 3) :
    (calculateNextReview q r e i).repetitions = 0 ∧
    (calculateNextReview q r e i).interval = 1 ∧
    (calculateNextReview q r e i).easeFactor = specEaseUpdate q e ∧
    13/10 ≤ (calculateNextReview q r e i).easeFactor := by
  rw [calc_failure_eq q r e i hq]
  exact ⟨rfl, rfl, rfl, specEaseUpdate_ge_floor q e⟩

theorem C1_witness :
    ((0 : Int) ≤ 2 ∧ (2 : Int) < 3) ∧
    (calculateNextReview 2 5 (5/2) 6).repetitions = 0 ∧
    (calculateNextReview 2 5 (5/2) 6).interval = 1 ∧
    (calculateNextReview 2 5 (5/2) 6).easeFactor = specEaseUpdate 2 (5/2) ∧
    13/10 ≤ (calculateNextReview 2 5 (5/2) 6).easeFactor :=
  ⟨⟨by norm_num, by norm_num⟩, C1_failure_branch 2 5 (5/2) 6 (by norm_num) (by norm_num)⟩

/-- C2: For every grade with quality ≥ 3 (a success), `calculateNextReview`
returns `repetitions = priorRepetitions + 1`, and the new interval is `1`
when `priorRepetitions = 0`, `6` when `priorRepetitions = 1`, and
`round(priorIntervalDays × newEaseFactor)` when `priorRepetitions ≥ 2`. -/
theorem C2_success_branch (q : Int) (r : Nat) (e : ℚ) (i : Int)
    (hq3 : 3 ≤ q) (hq5 : q ≤ 5) :
    (calculateNextReview q r e i).repetitions = r + 1 ∧
    (r = 0 → (calculateNextReview q r e i).interval = 1) ∧
    (r = 1 → (calculateNextReview q r e i).interval = 6) ∧
    (2 ≤ r → (calculateNextReview q r e i).interval
      = jsRound ((i : ℚ) * (calculateNextReview q r e i).easeFactor)) := by
  rw [calc_success_eq q r e i hq3]
  refine ⟨rfl, ?_, ?_, ?_⟩
  · intro h0; simp [h0]
  · intro h1; simp [h1]
  · intro h2
    rw [if_neg (by omega), if_neg (by omega)]

theorem C2_witness :
    ((3 : Int) ≤ 4 ∧ (4 : Int) ≤ 5) ∧
    ((calculateNextReview 4 1 (13/5) 1).repetitions = 1 + 1 ∧
     ((1 : Nat) = 0 → (calculateNextReview 4 1 (13/5) 1).interval = 1) ∧
     ((1 : Nat) = 1 → (calculateNextReview 4 1 (13/5) 1).interval = 6) ∧
     (2 ≤ (1 : Nat) → (calculateNextReview 4 1 (13/5) 1).interval
       = jsRound ((1 : ℚ) * (calculateNextReview 4 1 (13/5) 1).easeFactor))) :=
  ⟨⟨by norm_num, by norm_num⟩, C2_success_branch 4 1 (13/5) 1 (by norm_num) (by norm_num)⟩

/-- C3: For every quality in [0,5] and prior ease factor ≥ 1.3, the ease
factor returned by `calculateNextReview` is ≥ 1.3; moreover the bound is an
invariant of every iterated grading sequence (`runGrades`). -/
theorem C3_ease_floor :
    (∀ q : Int, 0 ≤ q → q ≤ 5 → ∀ e : ℚ, 13/10 ≤ e → ∀ (r : Nat) (i : Int),
        13/10 ≤ (calculateNextReview q r e i).easeFactor) ∧
    (∀ (init : SMResult) (qs : List Int), 13/10 ≤ init.easeFactor →
        13/10 ≤ (runGrades init qs).easeFactor) := by
  constructor
  · intro q _ _ e _ r i
    exact calc_easeFactor_ge_floor q r e i
  · intro init qs
    induction qs generalizing init with
    | nil => intro h; exact h
    | cons q qs ih =>
      intro _
      have hstep :
          runGrades init (q :: qs)
            = runGrades (calculateNextReview q init.repetitions init.easeFactor init.interval) qs := rfl
      rw [hstep]
      exact ih _ (calc_easeFactor_ge_floor q init.repetitions init.easeFactor init.interval)

theorem C3_witness :
    (((0 : Int) ≤ 0 ∧ (0 : Int) ≤ 5) ∧ (13 : ℚ)/10 ≤ 13/10) ∧
    13/10 ≤ (calculateNextReview 0 7 (13/10) 9).easeFactor :=
  ⟨⟨⟨by norm_num, by norm_num⟩, le_refl _⟩,
    C3_ease_floor.1 0 (by norm_num) (by norm_num) (13/10) (le_refl _) 7 9⟩

lemma reviewItem_some_eq (st : SRState) (now quality : Int) (ok : Bool) (cur : ReviewItem)
    (hcur : st.currentItem = some cur) :
    reviewItem st now quality ok =
      ({ dueItems := st.dueItems.filter (fun item => item.id != cur.id)
         currentItem := (st.dueItems.filter (fun item => item.id != cur.id)).head? },
       some { itemId := cur.id
              ease_factor := (calculateNextReview quality cur.repetitions cur.ease_factor 1).easeFactor
              interval := (calculateNextReview quality cur.repetitions cur.ease_factor 1).interval
              repetitions := (calculateNextReview quality cur.repetitions cur.ease_factor 1).repetitions
              next_review_date :=
                now + (calculateNextReview quality cur.repetitions cur.ease_factor 1).interval }) := by
  unfold reviewItem
  rw [hcur]

lemma specEaseUpdate_six (e : ℚ) (he : 13/10 ≤ e) : specEaseUpdate 6 e = e + 16/100 := by
  have h1 : specEaseUpdate 6 e = if e + 16/100 < 13/10 then (13/10 : ℚ) else e + 16/100 := by
    simp only [specEaseUpdate]
    norm_num
  rw [h1, if_neg (by linarith)]

lemma filter_ne_id_length (c : ReviewItem) :
    ∀ l : List ReviewItem, c ∈ l → (l.map ReviewItem.id).Nodup →
      (l.filter (fun x => x.id != c.id)).length + 1 = l.length := by
  intro l
  induction l with
  | nil => intro h; cases h
  | cons a t ih =>
    intro hmem hnd
    rw [List.map_cons, List.nodup_cons] at hnd
    obtain ⟨ha, hnd'⟩ := hnd
    rcases List.mem_cons.mp hmem with hca | hc
    · rw [hca]
      have hstep : List.filter (fun x => x.id != a.id) (a :: t)
          = List.filter (fun x => x.id != a.id) t := by
        simp [List.filter_cons]
      have hall : ∀ x ∈ t, (x.id != a.id) = true := by
        intro x hx
        rw [bne_iff_ne]
        intro hxa
        exact ha (by rw [← hxa]; exact List.mem_map_of_mem ReviewItem.id hx)
      rw [hstep, List.filter_eq_self.mpr hall, List.length_cons]
    · have hac : (a.id != c.id) = true := by
        rw [bne_iff_ne]
        intro h
        exact ha (by rw [h]; exact List.mem_map_of_mem ReviewItem.id hc)
      have hstep : List.filter (fun x => x.id != c.id) (a :: t)
          = a :: List.filter (fun x => x.id != c.id) t := by
        simp [List.filter_cons, hac]
      rw [hstep, List.length_cons, List.length_cons]
      have := ih hc hnd'
      omega

/-- C4: the claim says `reviewItem` passes the graded item's stored
`intervalDays` to the calculator; the source instead passes the constant
`1` (line 97), so grading `storedIntervalItem` (stored interval 6, ease
2.5, reps 2) with quality 4 writes interval `round(1 × 2.5) = 3`, not the
claimed `round(6 × 2.5) = 15`. This theorem evaluates the code at that
failing input. -/
theorem C4_hardcoded_interval_eval :
    (reviewItem storedIntervalState 0 4 true).2.map StoreWrite.interval = some 3 ∧
    jsRound ((storedIntervalItem.interval : ℚ) *
        (calculateNextReview 4 storedIntervalItem.repetitions storedIntervalItem.ease_factor
          storedIntervalItem.interval).easeFactor) = 15 := by
  rw [reviewItem_some_eq storedIntervalState 0 4 true storedIntervalItem rfl]
  norm_num [storedIntervalItem, mkItem, calculateNextReview, jsRound]

/-- C5 counterexample: the claim says quality 6 is rejected with no store
write and the item left current; the source performs the write and advances
the queue. -/
theorem C5_no_rejection_counterexample :
    oneItemState.currentItem = some itemB ∧
    (reviewItem oneItemState 0 6 true).2.isSome = true ∧
    (reviewItem oneItemState 0 6 true).1.currentItem = none := by
  rw [reviewItem_some_eq oneItemState 0 6 true itemB rfl]
  refine ⟨rfl, rfl, ?_⟩
  simp [oneItemState, itemB, mkItem]

/-- C5 amended: out-of-range quality is not validated anywhere: whenever an
item is current, `reviewItem` issues a store write for every quality value,
and for quality 6 the written ease factor is the prior ease plus 0.16 (the
SM-2 step-1 formula applied outside its domain). -/
theorem C5_amended_no_validation (st : SRState) (now : Int) (ok : Bool) (cur : ReviewItem)
    (hcur : st.currentItem = some cur) (he : 13/10 ≤ cur.ease_factor) :
    (∀ quality : Int, (reviewItem st now quality ok).2.isSome = true) ∧
    (reviewItem st now 6 ok).2.map StoreWrite.ease_factor = some (cur.ease_factor + 16/100) := by
  constructor
  · intro quality
    rw [reviewItem_some_eq st now quality ok cur hcur]
    rfl
  · rw [reviewItem_some_eq st now 6 ok cur hcur]
    rw [calc_easeFactor_eq, specEaseUpdate_six cur.ease_factor he]
    rfl

theorem C5_amended_witness :
    (oneItemState.currentItem = some itemB ∧ 13/10 ≤ itemB.ease_factor) ∧
    (reviewItem oneItemState 0 6 false).2.map StoreWrite.ease_factor
      = some (itemB.ease_factor + 16/100) :=
  ⟨⟨rfl, by norm_num [itemB, mkItem]⟩,
    (C5_amended_no_validation oneItemState 0 false itemB rfl
      (by norm_num [itemB, mkItem])).2⟩

/-- C6 counterexample: the claim says a failed store write leaves the
in-memory queue exactly as before; the source never inspects the write
result, so even with a failed write the item is removed and the queue
advances. -/
theorem C6_write_failure_counterexample :
    oneItemState.dueItems = [itemB] ∧
    (reviewItem oneItemState 0 4 false).1.dueItems = [] ∧
    (reviewItem oneItemState 0 4 false).1.currentItem = none := by
  rw [reviewItem_some_eq oneItemState 0 4 false itemB rfl]
  refine ⟨rfl, ?_, ?_⟩ <;> simp [oneItemState, itemB, mkItem]

/-- C6 amended: `reviewItem` never consults the store write's outcome: the
resulting session state is identical for a failed and a successful write,
and in both cases the graded item's id is filtered out of the queue. -/
theorem C6_amended_advances_regardless (st : SRState) (now quality : Int) (cur : ReviewItem)
    (hcur : st.currentItem = some cur) :
    (reviewItem st now quality false).1 = (reviewItem st now quality true).1 ∧
    (reviewItem st now quality false).1.dueItems
      = st.dueItems.filter (fun item => item.id != cur.id) := by
  rw [reviewItem_some_eq st now quality false cur hcur,
    reviewItem_some_eq st now quality true cur hcur]
  exact ⟨rfl, rfl⟩

theorem C6_amended_witness :
    twoItemState.currentItem = some itemA ∧
    (reviewItem twoItemState 0 1 false).1.dueItems
      = twoItemState.dueItems.filter (fun item => item.id != itemA.id) :=
  ⟨rfl, (C6_amended_advances_regardless twoItemState 0 1 itemA rfl).2⟩

/-- C7 counterexample: two due rows of the same owner share a
`next_review_date`, yet `fetchDueItemsQuery` returns them in the store's
underlying order (id 2 before id 1) — the source orders only by
`next_review_date` and requests no id tie-break, so equal-date items are
not ordered by id ascending. -/
theorem C7_tie_order_counterexample :
    itemA.next_review_date = itemB.next_review_date ∧
    (fetchDueItemsQuery tieStore 1 0).map ReviewItem.id = [2, 1] ∧
    ¬ List.Sorted (· ≤ ·) ((fetchDueItemsQuery tieStore 1 0).map ReviewItem.id) := by
  have h : (fetchDueItemsQuery tieStore 1 0).map ReviewItem.id = [2, 1] := by rfl
  refine ⟨rfl, h, ?_⟩
  rw [h]
  decide

/-- C7 amended: `fetchDueItemsQuery` returns exactly the owner's items with
`next_review_date ≤ asOf`, ordered ascending by `next_review_date`; no id
tie-break is requested, so equal-date items keep the store's underlying
order rather than ascending id order. -/
theorem C7_amended_load_sorted (store : List ReviewItem) (uid : Nat) (asOf : Int) :
    List.Sorted dateLE (fetchDueItemsQuery store uid asOf) ∧
    (fetchDueItemsQuery store uid asOf).Perm
      (store.filter (fun r => r.user_id == uid && decide (r.next_review_date ≤ asOf))) ∧
    (∀ x : ReviewItem, x ∈ fetchDueItemsQuery store uid asOf ↔
        x ∈ store ∧ x.user_id = uid ∧ x.next_review_date ≤ asOf) := by
  refine ⟨List.sorted_insertionSort dateLE _, List.perm_insertionSort dateLE _, ?_⟩
  intro x
  rw [fetchDueItemsQuery, List.mem_insertionSort, List.mem_filter]
  simp [and_assoc]

theorem C7_amended_witness :
    List.Sorted dateLE (fetchDueItemsQuery tieStore 1 0) ∧
    (∀ x : ReviewItem, x ∈ fetchDueItemsQuery tieStore 1 0 ↔
        x ∈ tieStore ∧ x.user_id = 1 ∧ x.next_review_date ≤ 0) :=
  ⟨(C7_amended_load_sorted tieStore 1 0).1, (C7_amended_load_sorted tieStore 1 0).2.2⟩

/-- C8 counterexample: the claim says grading with an empty queue surfaces
a `NoCurrentItem` error; the source's `if (!currentItem) return;` is a bare
return — at this concrete input the call is a silent no-op: state unchanged
and no write issued, with no error value of any kind in the result. -/
theorem C8_silent_noop_counterexample :
    reviewItem emptyState 0 4 true = (emptyState, none) := by
  unfold reviewItem
  rfl

/-- C8 amended: submitting a grade while no item is current is a silent
no-op: the session state is returned unchanged and no store write is
issued; no error is surfaced. -/
theorem C8_amended_silent_return (st : SRState) (now quality : Int) (ok : Bool)
    (h : st.currentItem = none) :
    reviewItem st now quality ok = (st, none) := by
  unfold reviewItem
  rw [h]

theorem C8_amended_witness :
    emptyState.currentItem = none ∧ reviewItem emptyState 1 5 false = (emptyState, none) :=
  ⟨rfl, C8_amended_silent_return emptyState 1 5 false rfl⟩

/-- C9: grading the current item removes exactly that one item from the
in-memory queue regardless of outcome: the remaining queue is a sublist of
the original (relative order unchanged) of length one less, every other
item is still present, and neither the queue nor the new current item can
present the graded id again in this session. -/
theorem C9_grade_removes_exactly_current (st : SRState) (now quality : Int) (ok : Bool)
    (cur : ReviewItem) (hcur : st.currentItem = some cur) (hmem : cur ∈ st.dueItems)
    (hnodup : (st.dueItems.map ReviewItem.id).Nodup) :
    (reviewItem st now quality ok).1.dueItems.Sublist st.dueItems ∧
    (reviewItem st now quality ok).1.dueItems.length + 1 = st.dueItems.length ∧
    (∀ x ∈ st.dueItems, x.id ≠ cur.id → x ∈ (reviewItem st now quality ok).1.dueItems) ∧
    (∀ x ∈ (reviewItem st now quality ok).1.dueItems, x.id ≠ cur.id) ∧
    (∀ x, (reviewItem st now quality ok).1.currentItem = some x → x.id ≠ cur.id) := by
  rw [reviewItem_some_eq st now quality ok cur hcur]
  refine ⟨List.filter_sublist _, filter_ne_id_length cur st.dueItems hmem hnodup, ?_, ?_, ?_⟩
  · intro x hx hne
    exact List.mem_filter.mpr ⟨hx, by rwa [bne_iff_ne]⟩
  · intro x hx
    exact bne_iff_ne.mp (List.mem_filter.mp hx).2
  · intro x hx
    have hxmem : x ∈ st.dueItems.filter (fun item => item.id != cur.id) := by
      cases hl : st.dueItems.filter (fun item => item.id != cur.id) with
      | nil => rw [hl] at hx; simp at hx
      | cons y ys =>
        rw [hl] at hx
        simp only [List.head?_cons, Option.some.injEq] at hx
        subst hx
        exact List.mem_cons_self y ys
    exact bne_iff_ne.mp (List.mem_filter.mp hxmem).2

theorem C9_witness :
    (twoItemState.currentItem = some itemA ∧ itemA ∈ twoItemState.dueItems ∧
      (twoItemState.dueItems.map ReviewItem.id).Nodup) ∧
    (reviewItem twoItemState 0 5 true).1.dueItems.length + 1
      = twoItemState.dueItems.length :=
  ⟨⟨rfl, List.mem_cons_self itemA [itemB], by simp [twoItemState, itemA, itemB, mkItem]⟩,
    (C9_grade_removes_exactly_current twoItemState 0 5 true itemA rfl
      (List.mem_cons_self itemA [itemB])
      (by simp [twoItemState, itemA, itemB, mkItem])).2.1⟩

/-- C10: once an item is presented as current, `fetchDueItems`'s state
update never replaces it, even when the freshly fetched queue has a
different head; the head is assigned only when no item was current. -/
theorem C10_reload_keeps_current (st : SRState) (data : List ReviewItem) :
    (∀ cur, st.currentItem = some cur →
        (applyFetchDueItems st data).currentItem = some cur) ∧
    (st.currentItem = none →
        (applyFetchDueItems st data).currentItem = data.head?) ∧
    (applyFetchDueItems st data).dueItems = data := by
  unfold applyFetchDueItems
  refine ⟨?_, ?_, rfl⟩
  · intro cur h
    cases data <;> rw [h]
  · intro h
    cases data <;> (rw [h]; rfl)

theorem C10_witness :
    twoItemState.currentItem = some itemA ∧
    (applyFetchDueItems twoItemState [itemB]).currentItem = some itemA :=
  ⟨rfl, (C10_reload_keeps_current twoItemState [itemB]).1 itemA rfl⟩

end FlowTime
